import Mathlib

/-!
Shallow embedding of the AlgoGuide backend resource pipeline (`agent.py`).

Python strings are modelled as Lean `String`; every string operation the
source uses (`in`, `lower`, `strip`, `split`, `startswith`, `urllib.parse.quote_plus`)
is re-implemented here over `List Char` so that all definitions reduce in the
kernel.  Network calls and the generative (Gemini) capability are modelled as
explicit outcome parameters: each claim quantifies over every outcome the
external world can produce.
-/

namespace AlgoGuide

/-- Contiguous-subsequence test on char lists: models the Python `in`
operator on strings (`needle in hay`). -/
def pyInChars : List Char → List Char → Bool
  | p, [] => p.isEmpty
  | p, c :: rest => p.isPrefixOf (c :: rest) || pyInChars p rest

/-- Python `needle in hay` for strings. -/
def pyIn (needle hay : String) : Bool :=
  pyInChars needle.toList hay.toList

/-- Python `s.lower()` (ASCII, which is all the source feeds it). -/
def pyLower (s : String) : String :=
  String.mk (s.toList.map Char.toLower)

/-- Python `s.strip()`: drop whitespace from both ends. -/
def pyStrip (s : String) : String :=
  String.mk (((s.toList.dropWhile Char.isWhitespace).reverse.dropWhile Char.isWhitespace).reverse)

/-- Split a char list at every char satisfying `p`, keeping empty segments
(Python `str.split(sep)` semantics for a one-char separator). -/
def splitByChar (p : Char → Bool) : List Char → List (List Char)
  | [] => [[]]
  | c :: rest =>
    if p c then [] :: splitByChar p rest
    else
      match splitByChar p rest with
      | [] => [[c]]
      | h :: t => (c :: h) :: t

/-- Python `s.split(sep)` for a single-char separator: empty segments kept. -/
def pySplitChar (sep : Char) (s : String) : List String :=
  (splitByChar (fun c => c = sep) s.toList).map String.mk

/-- Python `[x.strip() for x in s.split(m)]` with a comma separator, the list-field
parser used by `analyze_user_profile`; empty segments are kept. -/
def commaSplitTrim (s : String) : List String :=
  (pySplitChar ',' s).map pyStrip

/-- Python `s.split()` with no argument: split on whitespace runs, dropping
empty segments. -/
def pySplitWs (s : String) : List String :=
  ((splitByChar Char.isWhitespace s.toList).filter (fun l => !l.isEmpty)).map String.mk

/-- Python `s.startswith(p)`. -/
def pyStartsWith (p s : String) : Bool :=
  p.toList.isPrefixOf s.toList

/-- Python `s.endswith(p)`. -/
def pyEndsWith (p s : String) : Bool :=
  p.toList.isSuffixOf s.toList

/-- UTF-8 byte sequence of one code point, as `urllib.parse.quote_plus`
encodes it before percent-escaping. -/
def utf8Bytes (c : Char) : List Nat :=
  let n := c.toNat
  if n < 128 then [n]
  else if n < 2048 then [192 + n / 64, 128 + n % 64]
  else if n < 65536 then [224 + n / 4096, 128 + (n / 64) % 64, 128 + n % 64]
  else [240 + n / 262144, 128 + (n / 4096) % 64, 128 + (n / 64) % 64, 128 + n % 64]

/-- Uppercase hex digit for a value below 16. -/
def hexUpper (n : Nat) : Char :=
  "0123456789ABCDEF".toList.getD n '0'

/-- Percent-escape of one byte, uppercase hex as CPython produces. -/
def quoteByte (b : Nat) : List Char :=
  ['%', hexUpper (b / 16), hexUpper (b % 16)]

/-- Characters `urllib.parse.quote_plus` leaves unescaped: ASCII letters,
digits and `_.-~`. -/
def isSafeChar (c : Char) : Bool :=
  c.isAlphanum || c = '_' || c = '.' || c = '-' || c = '~'

/-- Python `urllib.parse.quote_plus(s)`: spaces become plus signs, safe
characters pass through, everything else is percent-escaped bytewise. -/
def quotePlus (s : String) : String :=
  String.mk (s.toList.flatMap (fun c =>
    if c = ' ' then ['+']
    else if isSafeChar c then [c]
    else (utf8Bytes c).flatMap quoteByte))

/-- One onboarding answer as consumed by `analyze_user_profile`; the source
reads `answer.get("question_id", "")` and `answer.get("answer", "")`. -/
structure Answer where
  question_id : String := ""
  answer : String := ""
deriving DecidableEq, Repr

/-- The profile dictionary initialized at the top of `analyze_user_profile`,
with the default every field carries before any answer is matched. -/
structure Profile where
  name : String := ""
  status : String := ""
  education : String := ""
  graduation_year : String := ""
  primary_language : String := ""
  tech_stack : List String := []
  familiar_topics : List String := []
  weak_areas : List String := []
  target_companies : List String := []
  preferred_role : String := ""
  target_timeline : String := ""
  preferred_resources : List String := []
deriving DecidableEq, Repr

/-- A resource dictionary as built by `create_resource_metadata`,
`_basic_gfg_resource` or the search fallback.  `estimated_time` is optional
because the search-fallback dictionary omits that key. -/
structure Resource where
  title : String
  url : String
  description : String
  resource_type : String
  difficulty : String
  estimated_time : Option Int := none
  tags : List String
  created_at : String
  query : String
  source : String
deriving DecidableEq, Repr

/-- The twelve profile fields populated by the matching chain in
`analyze_user_profile`. -/
inductive PField
  | name | status | education | graduation_year | primary_language
  | tech_stack | familiar_topics | weak_areas | target_companies
  | preferred_role | target_timeline | preferred_resources
deriving DecidableEq, Repr

/-- The if/elif substring-matching chain of `analyze_user_profile`: the first
marker contained in `question_id` wins; unmatched answers are ignored. -/
def fieldOf (qid : String) : Option PField :=
  if pyIn "name" qid then some .name
  else if pyIn "status" qid then some .status
  else if pyIn "education" qid then some .education
  else if pyIn "graduation_year" qid then some .graduation_year
  else if pyIn "primary_language" qid then some .primary_language
  else if pyIn "tech_stack" qid then some .tech_stack
  else if pyIn "familiar_topics" qid then some .familiar_topics
  else if pyIn "weak_areas" qid then some .weak_areas
  else if pyIn "target_companies" qid then some .target_companies
  else if pyIn "preferred_role" qid then some .preferred_role
  else if pyIn "target_timeline" qid then some .target_timeline
  else if pyIn "preferred_resources" qid then some .preferred_resources
  else none

/-- Effect of one loop iteration of `analyze_user_profile` on the profile
dictionary: scalar fields take the raw answer, list fields take the
comma-split of the answer with each segment stripped. -/
def applyAnswer (p : Profile) (a : Answer) : Profile :=
  match fieldOf a.question_id with
  | some .name => { p with name := a.answer }
  | some .status => { p with status := a.answer }
  | some .education => { p with education := a.answer }
  | some .graduation_year => { p with graduation_year := a.answer }
  | some .primary_language => { p with primary_language := a.answer }
  | some .tech_stack => { p with tech_stack := commaSplitTrim a.answer }
  | some .familiar_topics => { p with familiar_topics := commaSplitTrim a.answer }
  | some .weak_areas => { p with weak_areas := commaSplitTrim a.answer }
  | some .target_companies => { p with target_companies := commaSplitTrim a.answer }
  | some .preferred_role => { p with preferred_role := a.answer }
  | some .target_timeline => { p with target_timeline := a.answer }
  | some .preferred_resources => { p with preferred_resources := commaSplitTrim a.answer }
  | none => p

/-- Profile-extraction part of `analyze_user_profile`: fold the answer loop
over the fully-defaulted initial dictionary. -/
def analyze_user_profile (answers : List Answer) : Profile :=
  answers.foldl applyAnswer {}

/-- The fallback branch of `generate_search_queries`, taken when the
generative call raises: appends two queries per weak area, one per target
company, one per tech-stack entry, then truncates to 15. -/
def fallback_queries (p : Profile) : List String :=
  let qs := p.weak_areas.foldl (fun acc w =>
    acc ++ [w ++ " tutorial " ++ p.primary_language, w ++ " interview questions"]) []
  let qs := p.target_companies.foldl (fun acc c =>
    acc ++ [c ++ " " ++ p.preferred_role ++ " interview preparation"]) qs
  let qs := p.tech_stack.foldl (fun acc t =>
    acc ++ [t ++ " best practices tutorial"]) qs
  qs.take 15

/-- `_gfg_search_url`: the fixed canonical search endpoint with the query
escaped by `urllib.parse.quote_plus`. -/
def gfg_search_url (query : String) : String :=
  "https://www.geeksforgeeks.org/?s=" ++ quotePlus query

/-- The `blocked_prefixes` tuple of `_is_valid_gfg_article_url`. -/
def blockedPrefixList : List String :=
  ["https://www.geeksforgeeks.org/tag/",
   "https://www.geeksforgeeks.org/category/",
   "https://www.geeksforgeeks.org/author/",
   "https://www.geeksforgeeks.org/page/"]

/-- `_is_valid_gfg_article_url`: non-empty, contains the substring
`geeksforgeeks.org`, no `?s=`, and none of the four blocked section
endpoints as a string head. -/
def is_valid_gfg_article_url (url : String) : Bool :=
  if url = "" || !(pyIn "geeksforgeeks.org" url) then false
  else if pyIn "?s=" url then false
  else !(blockedPrefixList.any (fun b => pyStartsWith b url))

/-- Python `href.split("#", 1)[0]`: keep everything before the first hash. -/
def stripFragment (s : String) : String :=
  String.mk (s.toList.takeWhile (fun c => c ≠ '#'))

/-- The per-href normalization of `search_geeksforgeeks`: strip, make
protocol-relative and relative hrefs absolute, drop the fragment. -/
def normalizeHref (href : String) : String :=
  let h := pyStrip href
  let h := if pyStartsWith "//" h then "https:" ++ h else h
  let h := if pyStartsWith "/" h then "https://www.geeksforgeeks.org" ++ h else h
  stripFragment h

/-- The candidate loop of `search_geeksforgeeks`: skip falsy hrefs,
normalize, filter on validity, dedupe through `seen`, and stop as soon as
`max_results` URLs have been collected (the count check runs after the
append). -/
def searchGfgLoop : List String → Nat → List String → List String → List String
  | [], _, _, acc => acc.reverse
  | h :: rest, maxr, seen, acc =>
    if h = "" then searchGfgLoop rest maxr seen acc
    else
      let u := normalizeHref h
      if !(is_valid_gfg_article_url u) then searchGfgLoop rest maxr seen acc
      else if seen.contains u then searchGfgLoop rest maxr seen acc
      else if maxr ≤ acc.length + 1 then (u :: acc).reverse
      else searchGfgLoop rest maxr (u :: seen) (u :: acc)

/-- `search_geeksforgeeks` from the candidate anchor hrefs onward (the HTTP
fetch and HTML parsing that produce the candidate list are external). -/
def search_geeksforgeeks (hrefList : List String) (max_results : Nat) : List String :=
  searchGfgLoop hrefList max_results [] []

/-- The six keys `create_resource_metadata` asks Gemini for, as a parsed
JSON object (modelled complete; a dictionary missing keys would flow through
`update` the same way, with the missing fields simply absent downstream). -/
structure MetaJson where
  title : String
  description : String
  resource_type : String
  difficulty : String
  estimated_time : Int
  tags : List String
deriving DecidableEq, Repr

/-- Outcome of one `self.model.generate_content` call inside
`create_resource_metadata`, as seen by the surrounding Python control flow:
the call raises; it returns text that `json.loads` rejects; it returns text
that parses as JSON but not as a JSON object (so `metadata.update` raises
`AttributeError`, caught by the outer handler); or it returns a JSON object,
modelled here as a complete six-field record. -/
inductive MetaGen
  | raiseErr
  | badJson (raw : String)
  | nonDictJson
  | dict (m : MetaJson)
deriving DecidableEq, Repr

/-- Python `url.split('/')[2] if len(url.split('/')) > 2 else 'unknown'`. -/
def domainOf (url : String) : String :=
  let parts := pySplitChar '/' url
  if 2 < parts.length then parts.getD 2 "unknown" else "unknown"

/-- `create_resource_metadata`: `None` when the generative call raises or
when its output parses as JSON but `metadata.update` then raises; the
domain-derived fallback record when `json.loads` fails; the parsed object
otherwise.  Every returned record is stamped with url, query, created_at
and the provenance tag after parsing. -/
def create_resource_metadata (g : MetaGen) (url query now : String) : Option Resource :=
  match g with
  | .raiseErr => none
  | .nonDictJson => none
  | .badJson _ =>
    let d := domainOf url
    some { title := query ++ " - " ++ d,
           description := "Learning resource about " ++ query ++ " from " ++ d,
           resource_type := "unknown",
           difficulty := "intermediate",
           estimated_time := some 30,
           tags := pySplitWs query,
           url := url, query := query, created_at := now,
           source := "gemini_web_agent" }
  | .dict m =>
    some { title := m.title,
           description := m.description,
           resource_type := m.resource_type,
           difficulty := m.difficulty,
           estimated_time := some m.estimated_time,
           tags := m.tags,
           url := url, query := query, created_at := now,
           source := "gemini_web_agent" }

/-- `_basic_gfg_resource`: the minimal record the caller substitutes when
`create_resource_metadata` reports failure. -/
def basic_gfg_resource (url query now : String) : Resource :=
  { title := "GeeksforGeeks: " ++ query,
    url := url,
    description := "GeeksforGeeks article explaining " ++ query,
    resource_type := "blog",
    difficulty := "beginner",
    estimated_time := some 20,
    tags := pySplitWs query,
    created_at := now, query := query,
    source := "geeksforgeeks" }

/-- The tier-2 fallback dictionary appended by `search_and_scrape` when the
resource list is empty; it carries no `estimated_time` key. -/
def gfg_fallback_resource (query now : String) : Resource :=
  { title := "GeeksforGeeks search: " ++ query,
    url := gfg_search_url query,
    description := "GeeksforGeeks search results for " ++ query,
    resource_type := "search",
    difficulty := "beginner",
    estimated_time := none,
    tags := pySplitWs query,
    created_at := now, query := query,
    source := "geeksforgeeks_search_fallback" }

/-- Outcome of the `search_geeksforgeeks` HTTP fetch: the request raised
(caught in `search_and_scrape`, yielding an empty URL list), or it produced
a page whose anchors carry the given hrefs. -/
inductive ScrapeOutcome
  | raiseErr
  | html (hrefList : List String)
deriving DecidableEq, Repr

/-- The body of the resource loop in `search_and_scrape`: each discovered
URL yields the synthesized record, or the basic record when metadata
creation reports failure. -/
def resourceFor (oracle : String → MetaGen) (url query now : String) : Resource :=
  match create_resource_metadata (oracle url) url query now with
  | some r => r
  | none => basic_gfg_resource url query now

/-- `search_and_scrape`: tier-1 discovery over the scraped hrefs, one record
per discovered URL (capped at `max_results`), and the single tier-2 fallback
record exactly when the list ends up empty.  `oracle` gives the generative
outcome for each URL. -/
def search_and_scrape (query : String) (max_results : Nat)
    (scrape : ScrapeOutcome) (oracle : String → MetaGen) (now : String) : List Resource :=
  let gfg_urls := match scrape with
    | .raiseErr => []
    | .html hrefList => search_geeksforgeeks hrefList max_results
  let resources := (gfg_urls.take max_results).map (fun url => resourceFor oracle url query now)
  if resources.isEmpty then [gfg_fallback_resource query now] else resources

/-- The six fixed category names of `categorize_resources`. -/
inductive Category
  | weak_areas_improvement
  | interview_preparation
  | skill_development
  | practice_problems
  | technology_tutorials
  | general_learning
deriving DecidableEq, Repr

/-- The category name strings used as dictionary keys in the source. -/
def categoryName : Category → String
  | .weak_areas_improvement => "weak_areas_improvement"
  | .interview_preparation => "interview_preparation"
  | .skill_development => "skill_development"
  | .practice_problems => "practice_problems"
  | .technology_tutorials => "technology_tutorials"
  | .general_learning => "general_learning"

/-- The `category in categories` membership test: which of the six fixed
keys a category string denotes, if any. -/
def parseCategory (s : String) : Option Category :=
  if s = "weak_areas_improvement" then some .weak_areas_improvement
  else if s = "interview_preparation" then some .interview_preparation
  else if s = "skill_development" then some .skill_development
  else if s = "practice_problems" then some .practice_problems
  else if s = "technology_tutorials" then some .technology_tutorials
  else if s = "general_learning" then some .general_learning
  else none

/-- The `categories` dictionary of `categorize_resources`: six fixed keys,
each holding an ordered resource list. -/
structure Categories where
  weak_areas_improvement : List Resource := []
  interview_preparation : List Resource := []
  skill_development : List Resource := []
  practice_problems : List Resource := []
  technology_tutorials : List Resource := []
  general_learning : List Resource := []
deriving DecidableEq, Repr

/-- Read one category list out of the report. -/
def catList (cs : Categories) : Category → List Resource
  | .weak_areas_improvement => cs.weak_areas_improvement
  | .interview_preparation => cs.interview_preparation
  | .skill_development => cs.skill_development
  | .practice_problems => cs.practice_problems
  | .technology_tutorials => cs.technology_tutorials
  | .general_learning => cs.general_learning

/-- `categories[c].append(r)`. -/
def appendTo (cs : Categories) (c : Category) (r : Resource) : Categories :=
  match c with
  | .weak_areas_improvement => { cs with weak_areas_improvement := cs.weak_areas_improvement ++ [r] }
  | .interview_preparation => { cs with interview_preparation := cs.interview_preparation ++ [r] }
  | .skill_development => { cs with skill_development := cs.skill_development ++ [r] }
  | .practice_problems => { cs with practice_problems := cs.practice_problems ++ [r] }
  | .technology_tutorials => { cs with technology_tutorials := cs.technology_tutorials ++ [r] }
  | .general_learning => { cs with general_learning := cs.general_learning ++ [r] }

/-- Python `dict` built from insertion-ordered key/value writes, read with
`.get`: the last write for a key wins. -/
def pyDictGet (l : List (String × String)) (k : String) : Option String :=
  l.reverse.lookup k

/-- The keyword fallback of `categorize_resources`, per resource title: the
title is lowercased in every test, but the weak-area term itself is NOT
lowercased (the source tests `weak in title.lower()`), while company and
tech terms are. -/
def fallbackCategory (p : Profile) (title : String) : Category :=
  if p.weak_areas.any (fun w => pyIn w (pyLower title)) then .weak_areas_improvement
  else if p.target_companies.any (fun c => pyIn (pyLower c) (pyLower title)) then .interview_preparation
  else if pyIn "practice" (pyLower title) || pyIn "problem" (pyLower title) then .practice_problems
  else if p.tech_stack.any (fun t => pyIn (pyLower t) (pyLower title)) then .technology_tutorials
  else .general_learning

/-- The `categorization` dictionary the keyword fallback builds: one write
per resource, keyed by title. -/
def buildFallbackDict (res : List Resource) (p : Profile) : List (String × String) :=
  res.map (fun r => (r.title, categoryName (fallbackCategory p r.title)))

/-- The lookup `categorization.get(title, general_learning)` followed by the
`if category in categories` guard: missing titles and unknown category
strings both land in `general_learning`. -/
def resolveCategory (looked : Option String) : Category :=
  match looked with
  | none => .general_learning
  | some s =>
    match parseCategory s with
    | some c => c
    | none => .general_learning

/-- The assignment loop of `categorize_resources`: append every resource to
the category its title resolves to. -/
def assignAll (lookupFn : String → Option String) (res : List Resource) : Categories :=
  res.foldl (fun cs r => appendTo cs (resolveCategory (lookupFn r.title)) r) {}

/-- A value of the parsed categorization JSON object, as the membership test
`category in categories` sees it: a string (looked up among the six keys); a
hashable non-string JSON value (number, boolean or null — membership is
simply false, routing to general_learning); or an unhashable JSON value (an
array or object — the membership test raises TypeError). -/
inductive CatVal
  | str (s : String)
  | nonStrHashable
  | unhashable
deriving DecidableEq, Repr

/-- Outcome of the categorization `generate_content` call plus `json.loads`:
the call raises (total-failure path); the response parses as JSON but not as
an object, so the first `.get` raises and the outer handler fires (same
result as a raise); the response is unparseable JSON (keyword-fallback
path); or it parses to a JSON object mapping titles to arbitrary JSON
values. -/
inductive CatGen
  | raiseErr
  | nonDictJson
  | badJson (raw : String)
  | mapping (m : List (String × CatVal))
deriving DecidableEq, Repr

/-- Python `dict.get` over the parsed JSON object: keys are strings, values
arbitrary JSON values; the last write for a key wins. -/
def pyDictGetV (m : List (String × CatVal)) (k : String) : Option CatVal :=
  m.reverse.lookup k

/-- Category resolution for an arbitrary looked-up JSON value: a missing
title defaults to the general_learning string, an unknown category string or
a hashable non-string value fails the `category in categories` test and
lands in general_learning.  The unhashable case never reaches resolution in
the source (the membership test raises first); it is routed here to
general_learning only to keep this helper total, and the assignment loop
below checks for it before calling this. -/
def resolveCategoryV : Option CatVal → Category
  | none => .general_learning
  | some (.str s) =>
    match parseCategory s with
    | some c => c
    | none => .general_learning
  | some .nonStrHashable => .general_learning
  | some .unhashable => .general_learning

/-- The assignment loop of `categorize_resources` on the primary path, with
the exception it can raise made explicit: each resource is appended to the
category its looked-up value resolves to, unless the value is unhashable,
in which case `category in categories` raises TypeError and the loop aborts,
returning the partially built report and the raised flag. -/
def catLoop (lookupFn : String → Option CatVal) : List Resource → Categories → Categories × Bool
  | [], cs => (cs, false)
  | r :: rest, cs =>
    if lookupFn r.title = some CatVal.unhashable then (cs, true)
    else catLoop lookupFn rest (appendTo cs (resolveCategoryV (lookupFn r.title)) r)

/-- The category each resource title is routed to, per generative outcome
(meaningful for the primary path only when the loop does not abort). -/
def assignedCategory (g : CatGen) (res : List Resource) (p : Profile) (title : String) : Category :=
  match g with
  | .raiseErr => .general_learning
  | .nonDictJson => .general_learning
  | .badJson _ => resolveCategory (pyDictGet (buildFallbackDict res p) title)
  | .mapping m => resolveCategoryV (pyDictGetV m title)

/-- `categorize_resources`: the primary path runs the assignment loop over
the parsed mapping and, when the loop raised mid-way, the outer handler
overwrites only `general_learning` of the partially built report with the
whole input list; the keyword-fallback path applies the dictionary built
from titles (its values are always category-name strings, so it cannot
raise); the total-failure path overwrites `general_learning` directly. -/
def categorize_resources (g : CatGen) (res : List Resource) (p : Profile) : Categories :=
  match g with
  | .raiseErr => { general_learning := res }
  | .nonDictJson => { general_learning := res }
  | .badJson _ => assignAll (pyDictGet (buildFallbackDict res p)) res
  | .mapping m =>
    let r2 := catLoop (pyDictGetV m) res {}
    if r2.2 = true then { r2.1 with general_learning := res } else r2.1

/-! ### Helper lemmas -/

theorem pyInChars_nil (l : List Char) : pyInChars [] l = true := by
  cases l <;> simp [pyInChars, List.isPrefixOf, List.isEmpty]

theorem pyIn_empty_left (s : String) : pyIn "" s = true := by
  have h : ("" : String).toList = [] := rfl
  simp [pyIn, h, pyInChars_nil]

theorem append_left_ne_empty (s t : String) (h : s.data ≠ []) : s ++ t ≠ "" := by
  intro hc
  apply h
  have hd := congrArg String.data hc
  simp [String.data_append] at hd
  exact hd.1

theorem option_elim_getD {α β : Type} (o : Option α) (d : α) (g : α → β) :
    o.elim (g d) g = g (o.getD d) := by
  cases o <;> rfl

theorem catList_empty (c : Category) : catList {} c = [] := by
  cases c <;> rfl

theorem catList_appendTo (cs : Categories) (c c' : Category) (r : Resource) :
    catList (appendTo cs c' r) c =
      if c' = c then catList cs c ++ [r] else catList cs c := by
  cases c' <;> cases c <;> simp [appendTo, catList]

theorem foldl_assign_catList (res : List Resource) (g : Resource → Category)
    (cs : Categories) (c : Category) :
    catList (res.foldl (fun acc r => appendTo acc (g r) r) cs) c =
      catList cs c ++ res.filter (fun r => g r = c) := by
  induction res generalizing cs with
  | nil => simp
  | cons r rest ih =>
    simp only [List.foldl_cons, List.filter_cons]
    rw [ih, catList_appendTo]
    by_cases h : g r = c
    · simp [h]
    · simp [h]

theorem assignAll_catList (lookupFn : String → Option String) (res : List Resource)
    (c : Category) :
    catList (assignAll lookupFn res) c =
      res.filter (fun r => resolveCategory (lookupFn r.title) = c) := by
  unfold assignAll
  rw [foldl_assign_catList, catList_empty, List.nil_append]

theorem sum_six_filters (res : List Resource) (g : Resource → Category) :
    (res.filter (fun r => g r = Category.weak_areas_improvement)).length
    + (res.filter (fun r => g r = Category.interview_preparation)).length
    + (res.filter (fun r => g r = Category.skill_development)).length
    + (res.filter (fun r => g r = Category.practice_problems)).length
    + (res.filter (fun r => g r = Category.technology_tutorials)).length
    + (res.filter (fun r => g r = Category.general_learning)).length = res.length := by
  induction res with
  | nil => simp
  | cons r rest ih =>
    cases hg : g r <;> simp [List.filter_cons, hg, List.length_cons] <;> omega

theorem lookup_map_keyed (g : String → String) (l : List String) (k : String) (hk : k ∈ l) :
    (l.map (fun t => (t, g t))).lookup k = some (g k) := by
  induction l with
  | nil => cases hk
  | cons t rest ih =>
    by_cases h : k = t
    · subst h
      simp [List.lookup]
    · have hk' : k ∈ rest := by
        rcases List.mem_cons.mp hk with h1 | h1
        · exact absurd h1 h
        · exact h1
      have hbeq : (k == t) = false := beq_eq_false_iff_ne.mpr h
      simp [List.lookup, hbeq, ih hk']

theorem pyDictGet_buildFallbackDict (res : List Resource) (p : Profile)
    (r : Resource) (hr : r ∈ res) :
    pyDictGet (buildFallbackDict res p) r.title =
      some (categoryName (fallbackCategory p r.title)) := by
  unfold pyDictGet buildFallbackDict
  have hmap : (res.map fun x => (x.title, categoryName (fallbackCategory p x.title)))
      = (res.map (fun x => x.title)).map
          (fun t => (t, categoryName (fallbackCategory p t))) := by
    simp [List.map_map]
  rw [hmap, ← List.map_reverse]
  apply lookup_map_keyed
  rw [List.mem_reverse]
  exact List.mem_map_of_mem _ hr

theorem parseCategory_categoryName (c : Category) :
    parseCategory (categoryName c) = some c := by
  cases c <;> decide

theorem resolveCategory_categoryName (c : Category) :
    resolveCategory (some (categoryName c)) = c := by
  simp [resolveCategory, parseCategory_categoryName]

theorem searchGfgLoop_invariant (hs : List String) (maxr : Nat) :
    ∀ seen acc : List String,
    acc.Nodup →
    (∀ u ∈ acc, u ∈ seen) →
    (∀ u ∈ acc, is_valid_gfg_article_url u = true) →
    acc.length < maxr →
    (∀ u ∈ searchGfgLoop hs maxr seen acc, is_valid_gfg_article_url u = true)
    ∧ (searchGfgLoop hs maxr seen acc).Nodup
    ∧ (searchGfgLoop hs maxr seen acc).length ≤ maxr
    ∧ (∀ u ∈ searchGfgLoop hs maxr seen acc,
        u ∈ acc ∨ ∃ h ∈ hs, u = normalizeHref h) := by
  induction hs with
  | nil =>
    intro seen acc hnd hseen hval hlen
    rw [searchGfgLoop]
    refine ⟨?_, ?_, ?_, ?_⟩
    · intro u hu; exact hval u (List.mem_reverse.mp hu)
    · exact List.nodup_reverse.mpr hnd
    · rw [List.length_reverse]; omega
    · intro u hu; exact Or.inl (List.mem_reverse.mp hu)
  | cons h rest ih =>
    intro seen acc hnd hseen hval hlen
    rw [searchGfgLoop]
    by_cases h0 : h = ""
    · rw [if_pos h0]
      rcases ih seen acc hnd hseen hval hlen with ⟨a, b, c, d⟩
      refine ⟨a, b, c, ?_⟩
      intro u hu
      rcases d u hu with h1 | ⟨x, hx, he⟩
      · exact Or.inl h1
      · exact Or.inr ⟨x, List.mem_cons_of_mem _ hx, he⟩
    · rw [if_neg h0]
      simp only
      by_cases hv : is_valid_gfg_article_url (normalizeHref h) = true
      · rw [if_neg (by simp [hv])]
        by_cases hsn : seen.contains (normalizeHref h) = true
        · rw [if_pos hsn]
          rcases ih seen acc hnd hseen hval hlen with ⟨a, b, c, d⟩
          refine ⟨a, b, c, ?_⟩
          intro u hu
          rcases d u hu with h1 | ⟨x, hx, he⟩
          · exact Or.inl h1
          · exact Or.inr ⟨x, List.mem_cons_of_mem _ hx, he⟩
        · rw [if_neg hsn]
          have hnotacc : normalizeHref h ∉ acc := by
            intro hmem
            exact hsn (by simpa [List.contains] using hseen _ hmem)
          by_cases hb : maxr ≤ acc.length + 1
          · rw [if_pos hb]
            refine ⟨?_, ?_, ?_, ?_⟩
            · intro u hu
              rcases List.mem_cons.mp (List.mem_reverse.mp hu) with h1 | h1
              · rw [h1]; exact hv
              · exact hval u h1
            · exact List.nodup_reverse.mpr (List.nodup_cons.mpr ⟨hnotacc, hnd⟩)
            · rw [List.length_reverse, List.length_cons]; omega
            · intro u hu
              rcases List.mem_cons.mp (List.mem_reverse.mp hu) with h1 | h1
              · exact Or.inr ⟨h, List.mem_cons_self .., h1⟩
              · exact Or.inl h1
          · rw [if_neg hb]
            have hrec := ih (normalizeHref h :: seen) (normalizeHref h :: acc)
              (List.nodup_cons.mpr ⟨hnotacc, hnd⟩)
              (by
                intro u hu
                rcases List.mem_cons.mp hu with h1 | h1
                · rw [h1]; exact List.mem_cons_self ..
                · exact List.mem_cons_of_mem _ (hseen u h1))
              (by
                intro u hu
                rcases List.mem_cons.mp hu with h1 | h1
                · rw [h1]; exact hv
                · exact hval u h1)
              (by rw [List.length_cons]; omega)
            rcases hrec with ⟨a, b, c, d⟩
            refine ⟨a, b, c, ?_⟩
            intro u hu
            rcases d u hu with h1 | ⟨x, hx, he⟩
            · rcases List.mem_cons.mp h1 with h2 | h2
              · exact Or.inr ⟨h, List.mem_cons_self .., h2⟩
              · exact Or.inl h2
            · exact Or.inr ⟨x, List.mem_cons_of_mem _ hx, he⟩
      · rw [if_pos (by simpa using hv)]
        rcases ih seen acc hnd hseen hval hlen with ⟨a, b, c, d⟩
        refine ⟨a, b, c, ?_⟩
        intro u hu
        rcases d u hu with h1 | ⟨x, hx, he⟩
        · exact Or.inl h1
        · exact Or.inr ⟨x, List.mem_cons_of_mem _ hx, he⟩

/-- The answer that effectively populates field `f`: the last one in the list
whose `question_id` matches the marker for `f`. -/
def lastFor (f : PField) : List Answer → Option String
  | [] => none
  | a :: rest =>
    match lastFor f rest with
    | some v => some v
    | none => if fieldOf a.question_id = some f then some a.answer else none

/-- Value of a scalar field after extraction, given its default. -/
def scalarFrom (f : PField) (ans : List Answer) (d : String) : String :=
  (lastFor f ans).getD d

/-- Value of a list field after extraction, given its default. -/
def listFrom (f : PField) (ans : List Answer) (d : List String) : List String :=
  (lastFor f ans).elim d commaSplitTrim

/-- Declarative form of the extracted profile: every field is the
comma-split (list fields) or raw text (scalar fields) of the last matching
answer, or the default when no answer matches. -/
def profileSpec (p0 : Profile) (ans : List Answer) : Profile :=
  { name := scalarFrom .name ans p0.name,
    status := scalarFrom .status ans p0.status,
    education := scalarFrom .education ans p0.education,
    graduation_year := scalarFrom .graduation_year ans p0.graduation_year,
    primary_language := scalarFrom .primary_language ans p0.primary_language,
    tech_stack := listFrom .tech_stack ans p0.tech_stack,
    familiar_topics := listFrom .familiar_topics ans p0.familiar_topics,
    weak_areas := listFrom .weak_areas ans p0.weak_areas,
    target_companies := listFrom .target_companies ans p0.target_companies,
    preferred_role := scalarFrom .preferred_role ans p0.preferred_role,
    target_timeline := scalarFrom .target_timeline ans p0.target_timeline,
    preferred_resources := listFrom .preferred_resources ans p0.preferred_resources }

theorem lastFor_cons_ne (f : PField) (a : Answer) (rest : List Answer)
    (h : fieldOf a.question_id ≠ some f) :
    lastFor f (a :: rest) = lastFor f rest := by
  rw [lastFor]
  cases lastFor f rest <;> simp [h]

theorem lastFor_cons_eq (f : PField) (a : Answer) (rest : List Answer)
    (h : fieldOf a.question_id = some f) :
    lastFor f (a :: rest) = some ((lastFor f rest).getD a.answer) := by
  rw [lastFor]
  cases lastFor f rest <;> simp [h]

theorem scalarFrom_cons_eq (f : PField) (a : Answer) (rest : List Answer) (d : String)
    (h : fieldOf a.question_id = some f) :
    scalarFrom f (a :: rest) d = scalarFrom f rest a.answer := by
  rw [scalarFrom, scalarFrom, lastFor_cons_eq f a rest h]
  cases lastFor f rest <;> simp

theorem listFrom_cons_eq (f : PField) (a : Answer) (rest : List Answer) (d : List String)
    (h : fieldOf a.question_id = some f) :
    listFrom f (a :: rest) d = listFrom f rest (commaSplitTrim a.answer) := by
  rw [listFrom, listFrom, lastFor_cons_eq f a rest h]
  cases lastFor f rest <;> simp

theorem foldl_applyAnswer_eq (ans : List Answer) (p0 : Profile) :
    ans.foldl applyAnswer p0 = profileSpec p0 ans := by
  induction ans generalizing p0 with
  | nil =>
    simp [profileSpec, scalarFrom, listFrom, lastFor]
  | cons a rest ih =>
    rw [List.foldl_cons, ih]
    rcases hf : fieldOf a.question_id with _ | f
    · have hne : ∀ f : PField, fieldOf a.question_id ≠ some f := by
        intro f hc; rw [hf] at hc; cases hc
      simp only [profileSpec, applyAnswer, hf, scalarFrom, listFrom,
        lastFor_cons_ne _ a rest (hne _)]
    · cases f <;>
      · simp only [profileSpec, applyAnswer, hf]
        congr 1 <;>
          first
            | rw [scalarFrom_cons_eq _ a rest _ hf]
            | rw [listFrom_cons_eq _ a rest _ hf]
            | rw [scalarFrom, scalarFrom, lastFor_cons_ne _ a rest (by rw [hf]; intro hc; cases hc)]
            | rw [listFrom, listFrom, lastFor_cons_ne _ a rest (by rw [hf]; intro hc; cases hc)]

theorem foldl_append_blocks {α : Type} (l : List α) (g : α → List String)
    (init : List String) :
    l.foldl (fun acc x => acc ++ g x) init = init ++ l.flatMap g := by
  induction l generalizing init with
  | nil => simp
  | cons x rest ih => simp [ih, List.append_assoc]

theorem flatMap_single {α : Type} (l : List α) (g : α → String) :
    l.flatMap (fun x => [g x]) = l.map g := by
  induction l with
  | nil => rfl
  | cons x rest ih => simp [ih]

/-- A concrete resource used to instantiate hypothesis-bearing theorems. -/
def sampleResource : Resource :=
  { title := "Leetcode Practice Problems",
    url := "https://leetcode.com/problemset/",
    description := "practice set",
    resource_type := "practice",
    difficulty := "beginner",
    estimated_time := none,
    tags := ["leetcode"],
    created_at := "2024-01-01T00:00:00",
    query := "leetcode practice",
    source := "geeksforgeeks" }

/-! ### Claim theorems -/

/-- Claim C5: when the generative call fails, generate_search_queries
returns a pure deterministic function of the profile: two queries per weak
area in order (area tutorial language, area interview questions), then one
per target company, then one per tech-stack entry, truncated to 15; for weak
areas DSA and System Design with no companies and no tech stack this is
exactly 4 queries in that order. -/
theorem C5_fallback_queries (p : Profile) :
    fallback_queries p =
      (p.weak_areas.flatMap (fun w =>
          [w ++ " tutorial " ++ p.primary_language, w ++ " interview questions"])
        ++ p.target_companies.map (fun c => c ++ " " ++ p.preferred_role ++ " interview preparation")
        ++ p.tech_stack.map (fun t => t ++ " best practices tutorial")).take 15
    ∧ (fallback_queries p).length ≤ 15
    ∧ fallback_queries { weak_areas := ["DSA", "System Design"] } =
        ["DSA tutorial ", "DSA interview questions",
         "System Design tutorial ", "System Design interview questions"] := by
  have hform : fallback_queries p =
      (p.weak_areas.flatMap (fun w =>
          [w ++ " tutorial " ++ p.primary_language, w ++ " interview questions"])
        ++ p.target_companies.map (fun c => c ++ " " ++ p.preferred_role ++ " interview preparation")
        ++ p.tech_stack.map (fun t => t ++ " best practices tutorial")).take 15 := by
    rw [fallback_queries]
    rw [foldl_append_blocks, foldl_append_blocks, foldl_append_blocks,
      flatMap_single, flatMap_single]
    simp [List.append_assoc]
  refine ⟨hform, ?_, by decide⟩
  rw [hform]
  exact List.length_take_le 15 _

/-- Claim C6: profile extraction returns a profile with all twelve fields
defined, scalar fields defaulting to the empty string and list fields to the
empty list when no question matches, each field holding the value of the
last matching answer, list fields being the comma-split of that answer with
segments trimmed and empty segments kept (trimming never changes the
segment count, and a trailing or doubled comma yields empty segments). -/
theorem C6_profile_extraction (answers : List Answer) :
    analyze_user_profile answers = profileSpec {} answers
    ∧ (∀ s : String, (commaSplitTrim s).length = (pySplitChar ',' s).length)
    ∧ commaSplitTrim "DSA, ,System Design," = ["DSA", "", "System Design", ""] := by
  refine ⟨foldl_applyAnswer_eq answers {}, ?_, by decide⟩
  intro s
  rw [commaSplitTrim, List.length_map]

theorem catLoop_no_raise (lookupFn : String → Option CatVal) (res : List Resource)
    (cs : Categories) (h : ∀ r ∈ res, lookupFn r.title ≠ some CatVal.unhashable) :
    catLoop lookupFn res cs =
      (res.foldl (fun acc r => appendTo acc (resolveCategoryV (lookupFn r.title)) r) cs,
       false) := by
  induction res generalizing cs with
  | nil => rfl
  | cons r rest ih =>
    rw [catLoop, if_neg (h r (List.mem_cons_self ..))]
    rw [List.foldl_cons]
    exact ih _ (fun x hx => h x (List.mem_cons_of_mem _ hx))

/-- A concrete resource titled A, routed by the counterexample mapping. -/
def resourceA : Resource :=
  { title := "A", url := "https://www.geeksforgeeks.org/a",
    description := "a", resource_type := "blog", difficulty := "beginner",
    estimated_time := none, tags := [], created_at := "t", query := "q",
    source := "geeksforgeeks" }

/-- A concrete resource titled X, whose mapped value is an array. -/
def resourceX : Resource :=
  { title := "X", url := "https://www.geeksforgeeks.org/x",
    description := "x", resource_type := "blog", difficulty := "beginner",
    estimated_time := none, tags := [], created_at := "t", query := "q",
    source := "geeksforgeeks" }

/-- A parsed generative mapping whose second value is a JSON array: the
membership test on it raises TypeError mid-loop. -/
def badMapping : List (String × CatVal) :=
  [("A", CatVal.str "interview_preparation"), ("X", CatVal.unhashable)]

/-- Counterexample to C1 as stated: on the primary path a parsed JSON object
may map a title to an array or object value; the membership test
`category in categories` then raises TypeError mid-loop and the outer
handler overwrites only general_learning with the full input, so resources
appended before the abort appear in two categories — here resource A sits in
both interview_preparation and general_learning, and the category lengths
sum to 3 for a 2-resource input, so the output is not a partition. -/
theorem C1_counterexample :
    (categorize_resources (.mapping badMapping) [resourceA, resourceX] {}).interview_preparation
      = [resourceA]
    ∧ (categorize_resources (.mapping badMapping) [resourceA, resourceX] {}).general_learning
      = [resourceA, resourceX]
    ∧ (categorize_resources (.mapping badMapping) [resourceA, resourceX] {}).weak_areas_improvement.length
      + (categorize_resources (.mapping badMapping) [resourceA, resourceX] {}).interview_preparation.length
      + (categorize_resources (.mapping badMapping) [resourceA, resourceX] {}).skill_development.length
      + (categorize_resources (.mapping badMapping) [resourceA, resourceX] {}).practice_problems.length
      + (categorize_resources (.mapping badMapping) [resourceA, resourceX] {}).technology_tutorials.length
      + (categorize_resources (.mapping badMapping) [resourceA, resourceX] {}).general_learning.length
      = 3
    ∧ [resourceA, resourceX].length = 2
    ∧ resourceA ∈ (categorize_resources (.mapping badMapping) [resourceA, resourceX] {}).interview_preparation
    ∧ resourceA ∈ (categorize_resources (.mapping badMapping) [resourceA, resourceX] {}).general_learning := by
  decide

/-- Claim C1 amended: on the keyword-fallback and total-failure paths, and
on the primary path provided no input title is mapped to an unhashable
(array or object) JSON value, categorize_resources returns the six fixed
categories, each category list is the in-order sublist of input resources
routed to it, the category lengths sum to the input length, every input
resource lies in exactly one category list, and a title absent from the
mapping, mapped to a non-category string, or mapped to a hashable
non-string value is routed to general_learning; when some title is mapped
to an unhashable value the assignment loop aborts and the handler
overwrites only general_learning with the whole input, leaving resources
appended before the abort duplicated. -/
theorem C1_categorizer_partition (g : CatGen) (res : List Resource) (p : Profile)
    (hm : ∀ m, g = .mapping m → ∀ r ∈ res, pyDictGetV m r.title ≠ some CatVal.unhashable) :
    (∀ c : Category, catList (categorize_resources g res p) c =
        res.filter (fun r => assignedCategory g res p r.title = c))
    ∧ ((categorize_resources g res p).weak_areas_improvement.length
        + (categorize_resources g res p).interview_preparation.length
        + (categorize_resources g res p).skill_development.length
        + (categorize_resources g res p).practice_problems.length
        + (categorize_resources g res p).technology_tutorials.length
        + (categorize_resources g res p).general_learning.length = res.length)
    ∧ (∀ r ∈ res, ∃! c : Category, r ∈ catList (categorize_resources g res p) c)
    ∧ (∀ m title, pyDictGetV m title = none →
        assignedCategory (.mapping m) res p title = .general_learning)
    ∧ (∀ m title s, pyDictGetV m title = some (CatVal.str s) → parseCategory s = none →
        assignedCategory (.mapping m) res p title = .general_learning)
    ∧ (∀ m title, pyDictGetV m title = some CatVal.nonStrHashable →
        assignedCategory (.mapping m) res p title = .general_learning)
    ∧ (∀ m, (catLoop (pyDictGetV m) res {}).2 = true →
        (categorize_resources (.mapping m) res p).general_learning = res) := by
  have hfilter : ∀ c : Category, catList (categorize_resources g res p) c =
      res.filter (fun r => assignedCategory g res p r.title = c) := by
    intro c
    cases g with
    | raiseErr =>
      cases c <;> simp [categorize_resources, catList, assignedCategory,
        List.filter_true, List.filter_false]
    | nonDictJson =>
      cases c <;> simp [categorize_resources, catList, assignedCategory,
        List.filter_true, List.filter_false]
    | badJson raw =>
      rw [categorize_resources, assignAll_catList]
      rfl
    | mapping m =>
      have hno : ∀ r ∈ res, pyDictGetV m r.title ≠ some CatVal.unhashable := hm m rfl
      show catList (let r2 := catLoop (pyDictGetV m) res {};
          if r2.2 = true then { r2.1 with general_learning := res } else r2.1) c = _
      rw [catLoop_no_raise (pyDictGetV m) res {} hno]
      simp only [Bool.false_eq_true, if_false]
      rw [foldl_assign_catList, catList_empty, List.nil_append]
      rfl
  refine ⟨hfilter, ?_, ?_, ?_, ?_, ?_, ?_⟩
  · show (catList (categorize_resources g res p) .weak_areas_improvement).length
      + (catList (categorize_resources g res p) .interview_preparation).length
      + (catList (categorize_resources g res p) .skill_development).length
      + (catList (categorize_resources g res p) .practice_problems).length
      + (catList (categorize_resources g res p) .technology_tutorials).length
      + (catList (categorize_resources g res p) .general_learning).length = res.length
    simp only [hfilter]
    exact sum_six_filters res _
  · intro r hr
    refine ⟨assignedCategory g res p r.title, ?_, ?_⟩
    · show r ∈ catList (categorize_resources g res p) (assignedCategory g res p r.title)
      rw [hfilter]
      exact List.mem_filter.mpr ⟨hr, by simp⟩
    · intro c hc
      rw [hfilter] at hc
      have := (List.mem_filter.mp hc).2
      simp at this
      exact this.symm
  · intro m title h
    simp only [assignedCategory, resolveCategoryV, h]
  · intro m title s h1 h2
    simp only [assignedCategory, resolveCategoryV, h1, h2]
  · intro m title h
    simp only [assignedCategory, resolveCategoryV, h]
  · intro m hraise
    show (let r2 := catLoop (pyDictGetV m) res {};
        if r2.2 = true then { r2.1 with general_learning := res } else r2.1).general_learning = res
    simp only [hraise, if_true]

/-- Witness for C1 at a concrete input: with a mapping whose values are all
category strings, the sample resource lies in exactly one category of the
primary-path report. -/
theorem C1_witness :
    ∃! c : Category,
      sampleResource ∈ catList (categorize_resources
        (.mapping [("Leetcode Practice Problems", CatVal.str "practice_problems")])
        [sampleResource] {}) c :=
  (C1_categorizer_partition
    (.mapping [("Leetcode Practice Problems", CatVal.str "practice_problems")])
    [sampleResource] {}
    (fun m h => by cases h; decide)).2.2.1 sampleResource
    (List.mem_singleton.mpr rfl)

/-- Claim C9: the keyword-fallback categorization is a deterministic pure
function of the resource list and the profile: it does not depend on the
unparseable generative response text, the title dictionary it builds always
resolves each input title to the pure per-title keyword category, and that
per-title routing is what the assignment loop applies. -/
theorem C9_fallback_deterministic (res : List Resource) (p : Profile) (raw1 raw2 : String) :
    categorize_resources (.badJson raw1) res p = categorize_resources (.badJson raw2) res p
    ∧ (∀ r ∈ res, pyDictGet (buildFallbackDict res p) r.title =
        some (categoryName (fallbackCategory p r.title)))
    ∧ (∀ r ∈ res, assignedCategory (.badJson raw1) res p r.title = fallbackCategory p r.title) := by
  refine ⟨rfl, fun r hr => pyDictGet_buildFallbackDict res p r hr, ?_⟩
  intro r hr
  rw [assignedCategory, pyDictGet_buildFallbackDict res p r hr, resolveCategory_categoryName]

/-- Witness for C9 at a concrete input: the fallback dictionary resolves the
sample title to its keyword category. -/
theorem C9_witness :
    pyDictGet (buildFallbackDict [sampleResource] {}) sampleResource.title =
      some (categoryName (fallbackCategory {} sampleResource.title)) :=
  (C9_fallback_deterministic [sampleResource] {} "x" "y").2.1 sampleResource
    (List.mem_singleton.mpr rfl)

/-- Claim C10: when the extracted weak-areas list contains the empty string
(as a trailing comma produces, since empty segments are kept), the empty
needle is a substring of every title, so the keyword fallback routes every
resource to weak_areas_improvement and every other category is empty. -/
theorem C10_empty_weak_area (res : List Resource) (p : Profile) (raw : String)
    (h : "" ∈ p.weak_areas) :
    (∀ title, fallbackCategory p title = Category.weak_areas_improvement)
    ∧ catList (categorize_resources (.badJson raw) res p) .weak_areas_improvement = res
    ∧ (∀ c : Category, c ≠ Category.weak_areas_improvement →
        catList (categorize_resources (.badJson raw) res p) c = [])
    ∧ "" ∈ commaSplitTrim "DSA," := by
  have hany : ∀ title, p.weak_areas.any (fun w => pyIn w (pyLower title)) = true :=
    fun title => List.any_eq_true.mpr ⟨"", h, pyIn_empty_left _⟩
  have hcat : ∀ title, fallbackCategory p title = Category.weak_areas_improvement := by
    intro title
    rw [fallbackCategory, if_pos (hany title)]
  have hassigned : ∀ r ∈ res,
      resolveCategory (pyDictGet (buildFallbackDict res p) r.title) =
        Category.weak_areas_improvement := by
    intro r hr
    rw [pyDictGet_buildFallbackDict res p r hr, resolveCategory_categoryName, hcat]
  refine ⟨hcat, ?_, ?_, by decide⟩
  · rw [show categorize_resources (.badJson raw) res p =
        assignAll (pyDictGet (buildFallbackDict res p)) res from rfl, assignAll_catList]
    refine List.filter_eq_self.mpr ?_
    intro r hr
    simp [hassigned r hr]
  · intro c hc
    rw [show categorize_resources (.badJson raw) res p =
        assignAll (pyDictGet (buildFallbackDict res p)) res from rfl, assignAll_catList]
    refine List.filter_eq_nil_iff.mpr ?_
    intro r hr
    simp [hassigned r hr]
    intro hcontra
    exact absurd hcontra.symm hc

/-- Witness for C10 at a concrete input: with weak_areas containing the
empty string, the sample resource lands in weak_areas_improvement. -/
theorem C10_witness :
    catList (categorize_resources (.badJson "x") [sampleResource] { weak_areas := [""] })
      .weak_areas_improvement = [sampleResource] :=
  (C10_empty_weak_area [sampleResource] { weak_areas := [""] } "x" (by decide)).2.1

/-- Modelled from the claim wording of C2 for comparison with the source:
the claim says every keyword test is case-insensitive, which would mean the
weak-area term is lowercased before the substring test like the company and
tech terms are; the source lowercases only the title in that test. -/
def claimedFallbackCategory (p : Profile) (title : String) : Category :=
  if p.weak_areas.any (fun w => pyIn (pyLower w) (pyLower title)) then .weak_areas_improvement
  else if p.target_companies.any (fun c => pyIn (pyLower c) (pyLower title)) then .interview_preparation
  else if pyIn "practice" (pyLower title) || pyIn "problem" (pyLower title) then .practice_problems
  else if p.tech_stack.any (fun t => pyIn (pyLower t) (pyLower title)) then .technology_tutorials
  else .general_learning

/-- Counterexample to C2 as stated: with weak area DSA in uppercase, the
title DSA Course contains the term case-insensitively, so the claim routes
it to weak_areas_improvement, but the source compares the unlowercased term
against the lowercased title and routes it to general_learning. -/
theorem C2_counterexample :
    fallbackCategory { weak_areas := ["DSA"] } "DSA Course" = Category.general_learning
    ∧ claimedFallbackCategory { weak_areas := ["DSA"] } "DSA Course" =
        Category.weak_areas_improvement
    ∧ pyIn (pyLower "DSA") (pyLower "DSA Course") = true := by decide

/-- Claim C2 amended: the fallback tests the title in strict priority order
weak-area, company, practice-or-problem keyword, tech-stack, catch-all, with
the title lowercased in every test and the company and tech terms lowercased
too, but the weak-area term compared verbatim (not lowercased); the resource
titled Leetcode Practice Problems with empty weak areas and companies and
tech stack Python goes to practice_problems. -/
theorem C2_fallback_priority (p : Profile) (title : String) :
    (p.weak_areas.any (fun w => pyIn w (pyLower title)) = true →
      fallbackCategory p title = Category.weak_areas_improvement)
    ∧ (p.weak_areas.any (fun w => pyIn w (pyLower title)) = false →
        p.target_companies.any (fun c => pyIn (pyLower c) (pyLower title)) = true →
        fallbackCategory p title = Category.interview_preparation)
    ∧ (p.weak_areas.any (fun w => pyIn w (pyLower title)) = false →
        p.target_companies.any (fun c => pyIn (pyLower c) (pyLower title)) = false →
        (pyIn "practice" (pyLower title) || pyIn "problem" (pyLower title)) = true →
        fallbackCategory p title = Category.practice_problems)
    ∧ (p.weak_areas.any (fun w => pyIn w (pyLower title)) = false →
        p.target_companies.any (fun c => pyIn (pyLower c) (pyLower title)) = false →
        (pyIn "practice" (pyLower title) || pyIn "problem" (pyLower title)) = false →
        p.tech_stack.any (fun t => pyIn (pyLower t) (pyLower title)) = true →
        fallbackCategory p title = Category.technology_tutorials)
    ∧ (p.weak_areas.any (fun w => pyIn w (pyLower title)) = false →
        p.target_companies.any (fun c => pyIn (pyLower c) (pyLower title)) = false →
        (pyIn "practice" (pyLower title) || pyIn "problem" (pyLower title)) = false →
        p.tech_stack.any (fun t => pyIn (pyLower t) (pyLower title)) = false →
        fallbackCategory p title = Category.general_learning)
    ∧ fallbackCategory { tech_stack := ["Python"] } "Leetcode Practice Problems" =
        Category.practice_problems := by
  refine ⟨?_, ?_, ?_, ?_, ?_, by decide⟩ <;>
    · intros
      simp only [fallbackCategory, *]
      simp

/-- Witness for C2 at a concrete input: a lowercase weak-area term matching
the lowercased title routes to weak_areas_improvement. -/
theorem C2_witness :
    fallbackCategory { weak_areas := ["dsa"] } "DSA Roadmap" =
      Category.weak_areas_improvement :=
  (C2_fallback_priority { weak_areas := ["dsa"] } "DSA Roadmap").1 (by decide)

/-- The `resource_domains` allow-list declared in the agent constructor. -/
def resource_domains : List String :=
  ["youtube.com", "medium.com", "dev.to", "stackoverflow.com", "github.com",
   "geeksforgeeks.org", "leetcode.com", "hackerrank.com", "coursera.org",
   "udemy.com", "freecodecamp.org", "w3schools.com", "tutorialspoint.com",
   "javatpoint.com"]

/-- Host segment of an absolute URL: the piece between the scheme separator
and the next slash. -/
def urlHost (url : String) : String :=
  (pySplitChar '/' url).getD 2 ""

/-- Modelled from the claim wording of C3: a URL is on the allow-listed
domain set when its host equals an allow-listed domain or is a subdomain of
one.  The source instead runs a plain substring test on the whole URL. -/
def onAllowListedDomain (url : String) : Bool :=
  resource_domains.any (fun d => urlHost url = d || pyEndsWith ("." ++ d) (urlHost url))

/-- Counterexample to C3 as stated: a URL whose host is evil.com but whose
path mentions geeksforgeeks.org passes the substring filter and is retained
although its domain is not on the allow-list; and with max_results 0 the
loop still retains one URL, because the count check runs after the append,
so the cap can be exceeded. -/
theorem C3_counterexample :
    search_geeksforgeeks ["https://evil.com/geeksforgeeks.org"] 5
      = ["https://evil.com/geeksforgeeks.org"]
    ∧ onAllowListedDomain "https://evil.com/geeksforgeeks.org" = false
    ∧ (search_geeksforgeeks ["https://www.geeksforgeeks.org/binary-search/"] 0).length = 1 := by
  decide

theorem is_valid_components (u : String) (h : is_valid_gfg_article_url u = true) :
    pyIn "geeksforgeeks.org" u = true ∧ pyIn "?s=" u = false
    ∧ ∀ b ∈ blockedPrefixList, pyStartsWith b u = false := by
  rw [is_valid_gfg_article_url] at h
  split_ifs at h with h1 h2
  have h1f : ¬(u = "") ∧ pyIn "geeksforgeeks.org" u = true := by simpa using h1
  have hany : blockedPrefixList.any (fun b => pyStartsWith b u) = false := by
    cases hb : blockedPrefixList.any (fun b => pyStartsWith b u)
    · rfl
    · rw [hb] at h
      simp at h
  refine ⟨h1f.2, by simpa using h2, ?_⟩
  intro b hb
  by_contra hps
  rw [Bool.not_eq_false] at hps
  have htrue : blockedPrefixList.any (fun x => pyStartsWith x u) = true :=
    List.any_eq_true.mpr ⟨b, hb, hps⟩
  rw [htrue] at hany
  cases hany

/-- Claim C3 amended: every URL retained by tier-1 discovery passes the
source filter, meaning it contains the substring geeksforgeeks.org (a
weaker condition than having an allow-listed host), contains no search
marker, and starts with none of the four blocked section heads; retained
URLs are pairwise distinct after fragment stripping, each arises by
normalizing some candidate href, and when max_results is at least 1 at most
max_results URLs are retained. -/
theorem C3_discovery_filter (hrefList : List String) (maxr : Nat) (hmax : 1 ≤ maxr) :
    (∀ u ∈ search_geeksforgeeks hrefList maxr, is_valid_gfg_article_url u = true)
    ∧ (search_geeksforgeeks hrefList maxr).Nodup
    ∧ (search_geeksforgeeks hrefList maxr).length ≤ maxr
    ∧ (∀ u ∈ search_geeksforgeeks hrefList maxr, ∃ h ∈ hrefList, u = normalizeHref h)
    ∧ (∀ u ∈ search_geeksforgeeks hrefList maxr,
        pyIn "geeksforgeeks.org" u = true ∧ pyIn "?s=" u = false
        ∧ ∀ b ∈ blockedPrefixList, pyStartsWith b u = false) := by
  have hinv := searchGfgLoop_invariant hrefList maxr [] []
    List.nodup_nil (by intro u hu; cases hu) (by intro u hu; cases hu) (by simp; omega)
  rcases hinv with ⟨hval, hnd, hlen, horig⟩
  refine ⟨hval, hnd, hlen, ?_, ?_⟩
  · intro u hu
    rcases horig u hu with h1 | h1
    · cases h1
    · exact h1
  · intro u hu
    exact is_valid_components u (hval u hu)

/-- Witness for C3 at a concrete input: a mixed candidate list with
duplicates, a tag link, and a search link retains exactly the one valid
article URL. -/
theorem C3_witness :
    (∀ u ∈ search_geeksforgeeks
        ["/tag/python/", "https://www.geeksforgeeks.org/dsa/#top",
         "https://www.geeksforgeeks.org/dsa/", "https://www.geeksforgeeks.org/?s=x"] 5,
      is_valid_gfg_article_url u = true)
    ∧ (search_geeksforgeeks
        ["/tag/python/", "https://www.geeksforgeeks.org/dsa/#top",
         "https://www.geeksforgeeks.org/dsa/", "https://www.geeksforgeeks.org/?s=x"] 5).length ≤ 5 :=
  ⟨(C3_discovery_filter _ 5 (by decide)).1, (C3_discovery_filter _ 5 (by decide)).2.2.1⟩

theorem resourceFor_source (oracle : String → MetaGen) (u q now : String) :
    (resourceFor oracle u q now).source = "gemini_web_agent"
    ∨ (resourceFor oracle u q now).source = "geeksforgeeks" := by
  rw [resourceFor]
  cases oracle u <;> simp [create_resource_metadata, basic_gfg_resource]

/-- Counterexample to C4 as stated: with max_results 0, tier-1 discovery
yields one valid URL (the cap check runs after the append), yet the slice
taken afterwards is empty, so the tier-2 fallback is returned although tier
1 did not yield zero valid URLs. -/
theorem C4_counterexample :
    search_geeksforgeeks ["https://www.geeksforgeeks.org/binary-search/"] 0
      = ["https://www.geeksforgeeks.org/binary-search/"]
    ∧ search_and_scrape "dsa" 0 (.html ["https://www.geeksforgeeks.org/binary-search/"])
        (fun _ => .raiseErr) "t"
      = [gfg_fallback_resource "dsa" "t"] := by
  decide

/-- Claim C4 amended: provided max_results is at least 1, search_and_scrape
returns the tier-2 fallback exactly when tier-1 discovery yields zero valid
URLs (scrape raised or every candidate was rejected), and that fallback is
a single resource whose source tags it as the search fallback and whose url
is the fixed canonical search endpoint with the query escaped into it. -/
theorem C4_tier2_fallback (q : String) (maxr : Nat) (scrape : ScrapeOutcome)
    (oracle : String → MetaGen) (now : String) (hmax : 1 ≤ maxr) :
    (search_and_scrape q maxr scrape oracle now = [gfg_fallback_resource q now]
      ↔ (match scrape with
          | .raiseErr => ([] : List String)
          | .html hrefList => search_geeksforgeeks hrefList maxr) = [])
    ∧ (gfg_fallback_resource q now).source = "geeksforgeeks_search_fallback"
    ∧ (gfg_fallback_resource q now).url =
        "https://www.geeksforgeeks.org/?s=" ++ quotePlus q := by
  refine ⟨?_, rfl, rfl⟩
  cases scrape with
  | raiseErr => simp [search_and_scrape]
  | html hrefList =>
    rcases hg : search_geeksforgeeks hrefList maxr with _ | ⟨u, rest⟩
    · simp [search_and_scrape, hg]
    · obtain ⟨k, rfl⟩ : ∃ k, maxr = k + 1 := ⟨maxr - 1, by omega⟩
      constructor
      · intro heq
        rw [search_and_scrape] at heq
        simp only [hg, List.take_succ_cons, List.map_cons, List.isEmpty_cons,
          Bool.false_eq_true, if_false] at heq
        have hhead := (List.cons.injEq _ _ _ _).mp heq |>.1
        have hsrc := congrArg Resource.source hhead
        rcases resourceFor_source oracle u q now with hs | hs <;>
          · rw [hs] at hsrc
            simp [gfg_fallback_resource] at hsrc
      · intro heq
        have heq2 : search_geeksforgeeks hrefList (k + 1) = [] := heq
        rw [hg] at heq2
        exact (List.cons_ne_nil _ _ heq2).elim

/-- Witness for C4 at a concrete input: a raising scrape yields exactly the
tagged fallback resource. -/
theorem C4_witness :
    search_and_scrape "binary search" 5 .raiseErr (fun _ => .raiseErr) "t"
      = [gfg_fallback_resource "binary search" "t"] :=
  (C4_tier2_fallback "binary search" 5 .raiseErr (fun _ => .raiseErr) "t" (by decide)).1.mpr rfl

/-- Claim C7 amended: create_resource_metadata reports failure (returns no
record) when the generative call raises and also when the call succeeds but
its output parses as JSON that is not an object; when the output is not
valid JSON it returns the rule-derived record keyed off the URL domain
segment (title query-dash-domain, type unknown, difficulty intermediate, 30
minutes, tags the query tokens); every returned record is stamped with url,
query, created_at and the provenance tag; and on failure the caller
substitutes the minimal record with type blog, difficulty beginner, 20
minutes and tags the query tokens. -/
theorem C7_metadata_contract (g : MetaGen) (url q now : String) :
    (create_resource_metadata g url q now = none ↔ g = .raiseErr ∨ g = .nonDictJson)
    ∧ (∀ raw, create_resource_metadata (.badJson raw) url q now =
        some { title := q ++ " - " ++ domainOf url,
               description := "Learning resource about " ++ q ++ " from " ++ domainOf url,
               resource_type := "unknown",
               difficulty := "intermediate",
               estimated_time := some 30,
               tags := pySplitWs q,
               url := url, query := q, created_at := now,
               source := "gemini_web_agent" })
    ∧ (∀ r, create_resource_metadata g url q now = some r →
        r.url = url ∧ r.query = q ∧ r.created_at = now ∧ r.source = "gemini_web_agent")
    ∧ (∀ oracle : String → MetaGen,
        create_resource_metadata (oracle url) url q now = none →
        resourceFor oracle url q now = basic_gfg_resource url q now)
    ∧ (basic_gfg_resource url q now).resource_type = "blog"
    ∧ (basic_gfg_resource url q now).difficulty = "beginner"
    ∧ (basic_gfg_resource url q now).estimated_time = some 20
    ∧ (basic_gfg_resource url q now).tags = pySplitWs q := by
  refine ⟨?_, fun raw => rfl, ?_, ?_, rfl, rfl, rfl, rfl⟩
  · cases g <;> simp [create_resource_metadata]
  · intro r hr
    cases g <;> simp [create_resource_metadata] at hr
    · rw [← hr]
      exact ⟨rfl, rfl, rfl, rfl⟩
    · rw [← hr]
      exact ⟨rfl, rfl, rfl, rfl⟩
  · intro oracle h
    rw [resourceFor, h]

/-- Witness for C7 at a concrete input: a raising generative call yields no
record. -/
theorem C7_witness :
    create_resource_metadata .raiseErr "https://www.geeksforgeeks.org/x" "dsa" "t" = none :=
  (C7_metadata_contract .raiseErr "https://www.geeksforgeeks.org/x" "dsa" "t").1.mpr
    (Or.inl rfl)

/-- Counterexample to C7 as stated: when the generative call succeeds but
returns JSON that parses to a non-object (a list, say), the Python update
call raises AttributeError and the outer handler returns None, so failure
is not reported exactly when the generative call itself raises, and the
rule-derived record the claim promises for unparseable-as-record output is
not produced. -/
theorem C7_counterexample :
    create_resource_metadata .nonDictJson "https://www.geeksforgeeks.org/x" "dsa" "t" = none
    ∧ MetaGen.nonDictJson ≠ MetaGen.raiseErr := by
  refine ⟨rfl, ?_⟩
  intro h
  cases h

theorem append3_ne_empty (a b c : String) (h : b.data ≠ []) : a ++ b ++ c ≠ "" := by
  intro hc
  apply h
  have hd := congrArg String.data hc
  simp [String.data_append] at hd
  exact hd.2.1

theorem is_valid_ne_empty (u : String) (h : is_valid_gfg_article_url u = true) : u ≠ "" := by
  rw [is_valid_gfg_article_url] at h
  split_ifs at h with h1 h2
  have h1f : ¬(u = "") ∧ pyIn "geeksforgeeks.org" u = true := by simpa using h1
  exact h1f.1

/-- Claim C8 amended: no record is ever dropped before categorization; the
records built by the non-generative constructors (search fallback, basic
record, domain-derived fallback) always carry a non-empty title and url,
and so does every record in the search_and_scrape output provided the
generative capability never returns a parsed object with an empty title —
that title is passed through unvalidated. -/
theorem C8_resource_fields (q : String) (maxr : Nat) (scrape : ScrapeOutcome)
    (oracle : String → MetaGen) (now : String)
    (htitle : ∀ u m, oracle u = .dict m → m.title ≠ "") :
    ∀ r ∈ search_and_scrape q maxr scrape oracle now, r.title ≠ "" ∧ r.url ≠ "" := by
  intro r hr
  simp only [search_and_scrape] at hr
  split at hr
  · rw [List.mem_singleton] at hr
    subst hr
    constructor
    · exact append_left_ne_empty "GeeksforGeeks search: " q (by decide)
    · exact append_left_ne_empty "https://www.geeksforgeeks.org/?s=" (quotePlus q) (by decide)
  · rw [List.mem_map] at hr
    obtain ⟨u, hu, rfl⟩ := hr
    have huall : u ∈ (match scrape with
        | ScrapeOutcome.raiseErr => ([] : List String)
        | ScrapeOutcome.html hrefList => search_geeksforgeeks hrefList maxr) :=
      List.take_subset _ _ hu
    have hvalid : is_valid_gfg_article_url u = true := by
      cases scrape with
      | raiseErr => cases huall
      | html hrefList =>
        have hmax : 0 < maxr := by
          rcases Nat.eq_zero_or_pos maxr with h0 | h0
          · rw [h0, List.take_zero] at hu
            cases hu
          · exact h0
        exact (searchGfgLoop_invariant hrefList maxr [] []
          List.nodup_nil (by intro x hx; cases hx) (by intro x hx; cases hx)
          (by simpa using hmax)).1 u huall
    have hune : u ≠ "" := is_valid_ne_empty u hvalid
    rw [resourceFor]
    cases horacle : oracle u <;> simp only [create_resource_metadata]
    · exact ⟨append_left_ne_empty "GeeksforGeeks: " q (by decide), hune⟩
    · exact ⟨append3_ne_empty q " - " (domainOf u) (by decide), hune⟩
    · exact ⟨append_left_ne_empty "GeeksforGeeks: " q (by decide), hune⟩
    · rename_i m
      exact ⟨htitle u m horacle, hune⟩

/-- Witness for C8 at a concrete input: with a generative capability that
always raises, the returned fallback record has non-empty title and url. -/
theorem C8_witness :
    (gfg_fallback_resource "dsa" "t").title ≠ "" ∧ (gfg_fallback_resource "dsa" "t").url ≠ "" :=
  C8_resource_fields "dsa" 5 .raiseErr (fun _ => .raiseErr) "t"
    (fun _ _ h => MetaGen.noConfusion h)
    (gfg_fallback_resource "dsa" "t") (by decide)

/-- Counterexample to C8 as stated: a generative response that is the valid
JSON object with an empty title string flows through search_and_scrape into
the categorization input without being dropped, so a record lacking a
non-empty title does reach categorize_resources. -/
theorem C8_counterexample :
    (search_and_scrape "dsa" 5 (.html ["https://www.geeksforgeeks.org/x"])
        (fun _ => .dict { title := "", description := "", resource_type := "",
                          difficulty := "", estimated_time := 0, tags := [] }) "t").map
      Resource.title = [""] := by
  decide

end AlgoGuide
